import Mathlib

/-!
Shallow embedding of `src/app.py` (World Bank Development Indicators dashboard).

The script loads a CSV into a dataframe, normalizes the column headers,
extracts an integer `year` from the `date` column (dropping rows whose date
fails to parse), derives `GDP_per_capita = GDP_current_US / population` when
both source columns exist, filters rows by a multiselect of countries and an
inclusive year range, and renders one of fifteen question views.

Dataframe cells are float64 values where `NaN` doubles as the missing-value
marker.  We model a cell as `PVal`: an exact rational for finite floats plus
the two infinities and NaN.  Whether an operation yields NaN / an infinity /
a finite value is exact under this model (no rounding is involved in that
classification), which is all the claims below depend on.
-/

/-- A pandas float64 cell: finite value, infinity, or NaN (missing). -/
inductive PVal where
  | fin (q : ℚ)
  | pinf
  | ninf
  | nan
deriving DecidableEq, Repr

/-- Embeds pandas `isna`: only NaN is missing (infinities are defined values). -/
def PVal.isNA : PVal → Bool
  | .nan => true
  | _ => false

/-- Embeds float64 division as used on line 29 of `src/app.py`
(`df['GDP_current_US'] / df['population']`): NaN propagates, a nonzero
finite value divided by zero gives a signed infinity, `0 / 0` gives NaN.
No case raises an error. -/
def fdiv : PVal → PVal → PVal
  | .nan, _ => .nan
  | _, .nan => .nan
  | .fin a, .fin b =>
      if b ≠ 0 then .fin (a / b)
      else if a = 0 then .nan
      else if 0 < a then .pinf else .ninf
  | .fin _, .pinf => .fin 0
  | .fin _, .ninf => .fin 0
  | .pinf, .fin b => if 0 ≤ b then .pinf else .ninf
  | .ninf, .fin b => if 0 ≤ b then .ninf else .pinf
  | .pinf, .pinf => .nan
  | .pinf, .ninf => .nan
  | .ninf, .pinf => .nan
  | .ninf, .ninf => .nan

/-- Float64 addition on defined operands (used to embed pandas sums). -/
def fadd : PVal → PVal → PVal
  | .nan, _ => .nan
  | _, .nan => .nan
  | .fin a, .fin b => .fin (a + b)
  | .pinf, .fin _ => .pinf
  | .fin _, .pinf => .pinf
  | .ninf, .fin _ => .ninf
  | .fin _, .ninf => .ninf
  | .pinf, .pinf => .pinf
  | .ninf, .ninf => .ninf
  | .pinf, .ninf => .nan
  | .ninf, .pinf => .nan

/-- Embeds pandas `sum` with its default `skipna=True`: NaN entries are
skipped and an empty (or all-NaN) list sums to `0`. -/
def sumSkipNA (l : List PVal) : PVal :=
  (l.filter (fun v => !v.isNA)).foldl fadd (.fin 0)

/-- Embeds pandas `mean` with its default `skipna=True`: the mean is taken
over the defined entries only; an empty (or all-NaN) list has mean NaN. -/
def meanSkipNA (l : List PVal) : PVal :=
  let d := l.filter (fun v => !v.isNA)
  if d.isEmpty then .nan else fdiv (d.foldl fadd (.fin 0)) (.fin d.length)

/-! ### Column Normalizer (line 20 of `src/app.py`)

`df.columns.str.strip().str.replace('%','pct').str.replace(' ','_')`:
trim leading/trailing whitespace, then replace each literal `%` with the
substring `pct`, then replace each space with an underscore. -/

/-- The whitespace set stripped by Python's `str.strip()`. -/
def pyIsSpace (c : Char) : Bool :=
  c = ' ' || c = '\t' || c = '\n' || c = '\r' || c = '\x0b' || c = '\x0c'

/-- Embeds Python `str.strip()`: drop whitespace from both ends. -/
def stripChars (l : List Char) : List Char :=
  ((l.dropWhile pyIsSpace).reverse.dropWhile pyIsSpace).reverse

/-- Embeds `str.replace('%','pct')` character-wise (the pattern is a single
character, so substring replacement is a per-character expansion). -/
def pctExpand (c : Char) : List Char :=
  if c = '%' then ['p', 'c', 't'] else [c]

/-- Embeds `str.replace(' ','_')` on one character. -/
def underscoreSpace (c : Char) : Char :=
  if c = ' ' then '_' else c

/-- The three normalization steps of line 20, in source order. -/
def normChars (l : List Char) : List Char :=
  ((stripChars l).flatMap pctExpand).map underscoreSpace

/-- The Column Normalizer applied to one header string. -/
def normalizeCol (s : String) : String :=
  String.mk (normChars s.data)

/-! ### Indicator Records and the loaded table

One row of the loaded dataframe, with the columns the fifteen question
branches reference (names are the post-normalization header strings). -/

structure Record where
  country : String
  year : Int
  GDP_current_US : PVal
  population : PVal
  GDP_per_capita : PVal
  CO2_emisions : PVal
  life_expectancy_at_birth : PVal
  birth_rate : PVal
  death_rate : PVal
  forest_landpct : PVal
  agricultural_landpct : PVal
  renewvable_energy_consumptionpct : PVal
  rural_population : PVal
  access_to_electricitypct : PVal
  government_expenditure_on_educationpct : PVal
  human_capital_index : PVal
  individuals_using_internetpct : PVal
  control_of_corruption_estimate : PVal
  political_stability_estimate : PVal
  military_expenditurepct : PVal
  inflation_annualpct : PVal
  government_health_expenditurepct : PVal
  intentional_homicides : PVal
  research_and_development_expenditurepct : PVal
deriving DecidableEq, Repr

/-- A record with no country, year 0, and every indicator missing; used as a
base for building concrete fixtures. -/
def blankRecord : Record :=
  { country := "", year := 0, GDP_current_US := .nan, population := .nan,
    GDP_per_capita := .nan, CO2_emisions := .nan,
    life_expectancy_at_birth := .nan, birth_rate := .nan, death_rate := .nan,
    forest_landpct := .nan, agricultural_landpct := .nan,
    renewvable_energy_consumptionpct := .nan, rural_population := .nan,
    access_to_electricitypct := .nan,
    government_expenditure_on_educationpct := .nan,
    human_capital_index := .nan, individuals_using_internetpct := .nan,
    control_of_corruption_estimate := .nan,
    political_stability_estimate := .nan, military_expenditurepct := .nan,
    inflation_annualpct := .nan, government_health_expenditurepct := .nan,
    intentional_homicides := .nan,
    research_and_development_expenditurepct := .nan }

/-- A raw CSV row before year extraction: `dateYear` is the result of
`pd.to_datetime(df['date'], errors='coerce').dt.year` on its `date` cell
(`none` when the date fails to parse), and `fields` carries the indicator
columns (its `year` component is not yet meaningful). -/
structure RawRow where
  dateYear : Option Int
  fields : Record
deriving DecidableEq, Repr

/-- Embeds lines 23-25 of `src/app.py`: rows whose date fails to parse are
dropped from the table entirely; surviving rows get the parsed integer year. -/
def extractYear (rows : List RawRow) : List Record :=
  rows.filterMap (fun r => r.dateYear.map (fun y => { r.fields with year := y }))

/-! ### Column-level view of `load_data` step 3 (lines 28-29)

`if 'GDP_current_US' in df.columns and 'population' in df.columns:
     df['GDP_per_capita'] = df['GDP_current_US'] / df['population']`

For the claims about column existence and per-cell division we model the
dataframe column-wise: a list of named, index-aligned columns. -/

/-- The header names of a column-wise table. -/
def colNames (cols : List (String × List PVal)) : List String :=
  cols.map (·.1)

/-- Column access by header name (first match, as in a dataframe). -/
def lookupCol (n : String) (cols : List (String × List PVal)) : Option (List PVal) :=
  (cols.find? (fun c => c.1 == n)).map (·.2)

/-- Embeds lines 28-29: the derived column is appended only when both source
columns exist; each cell is the float64 quotient of the aligned cells. -/
def addGdpPerCapita (cols : List (String × List PVal)) : List (String × List PVal) :=
  match lookupCol "GDP_current_US" cols, lookupCol "population" cols with
  | some g, some p => cols ++ [("GDP_per_capita", List.zipWith fdiv g p)]
  | _, _ => cols

/-! ### Filter Engine (lines 51-55)

`df[(df['country'].isin(countries)) & (df['year'] >= lo) & (df['year'] <= hi)]` -/

/-- Embeds the boolean-mask row filter of lines 51-55. -/
def applyFilter (df : List Record) (countries : List String) (lo hi : Int) :
    List Record :=
  df.filter (fun r =>
    countries.contains r.country && decide (lo ≤ r.year) && decide (r.year ≤ hi))

/-! ### Aggregation helpers (groupby, max, nlargest) -/

/-- Embeds `series.max()` on the `year` column (only ever used on a nonempty
table in the source; the `0` default is never reached under that guard). -/
def maxYearD (t : List Record) : Int :=
  match t with
  | [] => 0
  | r :: rs => rs.foldl (fun m x => max m x.year) r.year

/-- The distinct years of a table in ascending order (pandas `groupby`
sorts its keys ascending). -/
def sortedYears (t : List Record) : List Int :=
  ((t.map (·.year)).eraseDups).mergeSort (fun a b => decide (a ≤ b))

/-- Embeds `df.groupby('year')['GDP_current_US'].sum()` (line 84): per
distinct year, the skip-NaN sum of the GDP column over rows of that year. -/
def globalGdpByYear (t : List Record) : List (Int × PVal) :=
  (sortedYears t).map (fun y =>
    (y, sumSkipNA ((t.filter (fun r => r.year == y)).map (·.GDP_current_US))))

/-- Embeds `t.groupby('year')[[c1, c2]].mean()` (lines 138 and 163): per
distinct year, the skip-NaN mean of each of the two columns. -/
def meanByYear2 (t : List Record) (f g : Record → PVal) :
    List (Int × PVal × PVal) :=
  (sortedYears t).map (fun y =>
    (y, meanSkipNA ((t.filter (fun r => r.year == y)).map f),
        meanSkipNA ((t.filter (fun r => r.year == y)).map g)))

/-- Total comparison used to order cells: `ninf < fin _ < pinf`.  NaN is
placed below everything; rows with a NaN key are removed before any sort, so
its position in the order never influences a result. -/
def pvalLeB : PVal → PVal → Bool
  | .nan, _ => true
  | _, .nan => false
  | .ninf, _ => true
  | _, .ninf => false
  | .fin a, .fin b => decide (a ≤ b)
  | .fin _, .pinf => true
  | .pinf, .fin _ => false
  | .pinf, .pinf => true

/-- Descending-by-CO2 comparison: `a` sorts before `b` when its CO2 cell is
at least `b`'s. -/
def co2desc (a b : Record) : Bool :=
  pvalLeB b.CO2_emisions a.CO2_emisions

/-- Embeds `frame.nlargest(n, col)` with its default `keep='first'`: rows
with a NaN key are excluded, the rest are stably sorted descending by the
key, and the first `n` are kept. -/
def nlargest (n : Nat) (key : Record → PVal) (t : List Record) : List Record :=
  ((t.filter (fun r => !(key r).isNA)).mergeSort
    (fun a b => pvalLeB (key b) (key a))).take n

/-- Embeds lines 105-108: restrict the full table to rows with a defined CO2
cell, slice out the maximum year of that restriction, and take the 10 rows
largest by CO2. -/
def q3Top (df : List Record) : List Record :=
  let latest := df.filter (fun r => !(r.CO2_emisions).isNA)
  nlargest 10 (·.CO2_emisions) (latest.filter (fun r => r.year == maxYearD latest))

/-- The year-slice that `q3Top` sorts: CO2-defined rows at the latest
CO2-defined year, after `nlargest`'s own NaN-key removal. -/
def co2slice (df : List Record) : List Record :=
  ((df.filter (fun r => !(r.CO2_emisions).isNA)).filter
    (fun r => r.year == maxYearD (df.filter (fun r => !(r.CO2_emisions).isNA)))).filter
    (fun r => !(r.CO2_emisions).isNA)

/-- Embeds `dropna(subset=[c1, c2])`: keep rows where both cells are defined. -/
def dropna2 (f g : Record → PVal) (t : List Record) : List Record :=
  t.filter (fun r => !(f r).isNA && !(g r).isNA)

/-! ### The fifteen question branches (lines 81-206) -/

inductive Question where
  | q1 | q2 | q3 | q4 | q5 | q6 | q7 | q8
  | q9 | q10 | q11 | q12 | q13 | q14 | q15
deriving DecidableEq, Repr

/-- What a branch leaves on the page: a chart over some data, a warning, or
nothing.  `err` models an uncaught exception; no branch constructs it, which
is the embedded form of "no branch crashes" (pandas groupby / max / plotting
accept empty frames without raising). -/
inductive RenderResult where
  | chartRows (rows : List Record)
  | chartSeries (pts : List (Int × PVal))
  | chartSeries2 (pts : List (Int × PVal × PVal))
  | chartBar (rows : List Record)
  | warn
  | skip
  | err
deriving DecidableEq, Repr

/-- Embeds the per-question visualization logic (lines 81-206), one branch
per research question, taking the data each plotting call receives as the
branch's result.  Branches that plot the filtered table row-wise (scatter or
per-country line charts) yield `chartRows`; Q1 aggregates the FULL table;
Q2 warns when its dropna'd selection is empty; Q3 silently renders nothing
when no CO2 value exists in the whole table. -/
def renderQuestion (df : List Record) (countries : List String) (lo hi : Int)
    (q : Question) : RenderResult :=
  let filtered := applyFilter df countries lo hi
  match q with
  | .q1 => .chartSeries (globalGdpByYear df)
  | .q2 =>
      let data := dropna2 (·.GDP_per_capita) (·.life_expectancy_at_birth) filtered
      if !data.isEmpty then
        .chartRows (data.filter (fun r => r.year == maxYearD data))
      else .warn
  | .q3 =>
      let latest := df.filter (fun r => !(r.CO2_emisions).isNA)
      if !latest.isEmpty then .chartBar (q3Top df) else .skip
  | .q4 => .chartRows filtered
  | .q5 => .chartRows filtered
  | .q6 => .chartRows filtered
  | .q7 => .chartSeries2 (meanByYear2 filtered (·.birth_rate) (·.death_rate))
  | .q8 => .chartRows filtered
  | .q9 => .chartRows filtered
  | .q10 => .chartSeries2 (meanByYear2 filtered (·.forest_landpct) (·.agricultural_landpct))
  | .q11 => .chartRows filtered
  | .q12 => .chartRows filtered
  | .q13 => .chartRows filtered
  | .q14 => .chartRows filtered
  | .q15 => .chartRows filtered

/-! ## Lemmas: Column Normalizer -/

lemma dropWhile_eq_cons_head {α} {p : α → Bool} {l t : List α} {a : α}
    (h : l.dropWhile p = a :: t) : p a = false := by
  induction l with
  | nil => simp at h
  | cons x xs ih =>
    rw [List.dropWhile_cons] at h
    by_cases hx : p x = true
    · rw [if_pos hx] at h; exact ih h
    · rw [if_neg hx] at h
      cases h
      simpa using hx

lemma dropWhile_idem {α} (p : α → Bool) (l : List α) :
    (l.dropWhile p).dropWhile p = l.dropWhile p := by
  induction l with
  | nil => rfl
  | cons a t ih =>
    rw [List.dropWhile_cons]
    by_cases h : p a = true
    · rw [if_pos h]; exact ih
    · rw [if_neg h, List.dropWhile_cons, if_neg h]

lemma dropWhile_flatMap_of_heads {α} (p : α → Bool) (G : α → List α)
    (hne : ∀ c, G c ≠ [])
    (hns : ∀ c, p c = false → ∀ d ∈ G c, p d = false) :
    ∀ l : List α, l.dropWhile p = l → (l.flatMap G).dropWhile p = l.flatMap G := by
  intro l hl
  cases l with
  | nil => rfl
  | cons c t =>
    have hpc : p c = false := dropWhile_eq_cons_head hl
    rw [List.flatMap_cons]
    cases hG : G c with
    | nil => exact absurd hG (hne c)
    | cons d ds =>
      have hpd : p d = false := hns c hpc d (by rw [hG]; exact List.mem_cons_self d ds)
      rw [List.cons_append, List.dropWhile_cons, if_neg (by simp [hpd])]

lemma stripChars_dropWhile (l : List Char) :
    (stripChars l).dropWhile pyIsSpace = stripChars l := by
  unfold stripChars
  cases hA : l.dropWhile pyIsSpace with
  | nil => simp
  | cons a t =>
    have hpa : pyIsSpace a = false := dropWhile_eq_cons_head hA
    rw [List.reverse_cons, List.dropWhile_append]
    by_cases he : (t.reverse.dropWhile pyIsSpace).isEmpty = true
    · rw [if_pos he]
      simp [List.dropWhile_cons, hpa]
    · rw [if_neg he, List.reverse_append]
      simp [List.dropWhile_cons, hpa]

lemma stripChars_reverse_dropWhile (l : List Char) :
    (stripChars l).reverse.dropWhile pyIsSpace = (stripChars l).reverse := by
  unfold stripChars
  rw [List.reverse_reverse]
  exact dropWhile_idem _ _

lemma stripChars_eq_self_of_ends {l : List Char}
    (hf : l.dropWhile pyIsSpace = l)
    (hb : l.reverse.dropWhile pyIsSpace = l.reverse) :
    stripChars l = l := by
  unfold stripChars
  rw [hf, hb, List.reverse_reverse]

/-- Combined per-character action of the two `replace` steps. -/
def normStep (c : Char) : List Char :=
  (pctExpand c).map underscoreSpace

lemma normChars_eq_flatMap (l : List Char) :
    normChars l = (stripChars l).flatMap normStep := by
  unfold normChars normStep
  rw [List.map_flatMap]

lemma normStep_ne_nil (c : Char) : normStep c ≠ [] := by
  unfold normStep pctExpand
  by_cases h : c = '%' <;> simp [h]

lemma normStep_no_space (c : Char) (hc : pyIsSpace c = false) :
    ∀ d ∈ normStep c, pyIsSpace d = false := by
  intro d hd
  unfold normStep pctExpand underscoreSpace at hd
  by_cases h : c = '%'
  · rw [if_pos h] at hd
    simp only [List.mem_map, List.mem_cons, List.not_mem_nil, or_false] at hd
    obtain ⟨e, he, rfl⟩ := hd
    rcases he with rfl | rfl | rfl <;> decide
  · rw [if_neg h] at hd
    simp only [List.map_cons, List.map_nil, List.mem_singleton] at hd
    subst hd
    by_cases hsp : c = ' '
    · subst hsp; exact absurd hc (by decide)
    · rw [if_neg hsp]; exact hc

lemma mem_normChars (l : List Char) :
    ∀ c ∈ normChars l, c ≠ '%' ∧ c ≠ ' ' := by
  intro c hc
  rw [normChars_eq_flatMap, List.mem_flatMap] at hc
  obtain ⟨e, _, hce⟩ := hc
  unfold normStep pctExpand underscoreSpace at hce
  by_cases h : e = '%'
  · rw [if_pos h] at hce
    simp only [List.mem_map, List.mem_cons, List.not_mem_nil, or_false] at hce
    obtain ⟨d, hd, rfl⟩ := hce
    rcases hd with rfl | rfl | rfl <;> decide
  · rw [if_neg h] at hce
    simp only [List.map_cons, List.map_nil, List.mem_singleton] at hce
    subst hce
    by_cases hsp : e = ' '
    · rw [if_pos hsp]; decide
    · rw [if_neg hsp]; exact ⟨h, hsp⟩

lemma flatMap_pctExpand_eq_self {l : List Char} (h : ∀ c ∈ l, c ≠ '%') :
    l.flatMap pctExpand = l := by
  induction l with
  | nil => rfl
  | cons a t ih =>
    rw [List.flatMap_cons, ih (fun c hc => h c (List.mem_cons_of_mem a hc))]
    unfold pctExpand
    rw [if_neg (h a (List.mem_cons_self a t))]
    rfl

lemma map_underscoreSpace_eq_self {l : List Char} (h : ∀ c ∈ l, c ≠ ' ') :
    l.map underscoreSpace = l := by
  induction l with
  | nil => rfl
  | cons a t ih =>
    rw [List.map_cons, ih (fun c hc => h c (List.mem_cons_of_mem a hc))]
    unfold underscoreSpace
    rw [if_neg (h a (List.mem_cons_self a t))]

lemma stripChars_normChars (l : List Char) :
    stripChars (normChars l) = normChars l := by
  apply stripChars_eq_self_of_ends
  · rw [normChars_eq_flatMap]
    exact dropWhile_flatMap_of_heads pyIsSpace normStep normStep_ne_nil
      normStep_no_space (stripChars l) (stripChars_dropWhile l)
  · rw [normChars_eq_flatMap, List.reverse_flatMap]
    exact dropWhile_flatMap_of_heads pyIsSpace (List.reverse ∘ normStep)
      (fun c => by simp [normStep_ne_nil c])
      (fun c hc d hd => normStep_no_space c hc d (by simpa using hd))
      (stripChars l).reverse (stripChars_reverse_dropWhile l)

lemma normChars_idem (l : List Char) :
    normChars (normChars l) = normChars l := by
  conv_lhs => rw [normChars]
  rw [stripChars_normChars,
    flatMap_pctExpand_eq_self (fun c hc => (mem_normChars l c hc).1),
    map_underscoreSpace_eq_self (fun c hc => (mem_normChars l c hc).2)]

/-! ## Lemmas: the cell order used by `nlargest` -/

lemma pvalLeB_total (a b : PVal) : (pvalLeB a b || pvalLeB b a) = true := by
  cases a <;> cases b <;> first
    | rfl
    | (simp only [pvalLeB, Bool.or_eq_true, decide_eq_true_eq]; exact le_total _ _)

lemma pvalLeB_trans (a b c : PVal) (h1 : pvalLeB a b = true)
    (h2 : pvalLeB b c = true) : pvalLeB a c = true := by
  cases a <;> cases b <;> cases c <;> simp_all [pvalLeB]
  exact le_trans h1 h2

lemma co2desc_total (a b : Record) : (co2desc a b || co2desc b a) = true := by
  unfold co2desc
  exact pvalLeB_total _ _

lemma co2desc_trans (a b c : Record) (h1 : co2desc a b = true)
    (h2 : co2desc b c = true) : co2desc a c = true := by
  unfold co2desc at h1 h2 ⊢
  exact pvalLeB_trans _ _ _ h2 h1

/-! ## Claim theorems -/

/-- C4: the Column Normalizer (strip leading/trailing whitespace, replace
the literal `%` with `pct`, replace spaces with underscore) is idempotent:
for every header string, normalizing twice equals normalizing once. -/
theorem C4_normalizeCol_idempotent (s : String) :
    normalizeCol (normalizeCol s) = normalizeCol s := by
  unfold normalizeCol
  exact congrArg String.mk (normChars_idem s.data)

/-- C1: the Q1 Global GDP Growth view aggregates the full normalized table
(line 84 groups `df`, not `filtered_df`), so its per-year GDP sums are
identical under any two filter selections over the same table; in fact the
view is exactly the unfiltered per-year sum. -/
theorem C1_q1_filter_independent (df : List Record)
    (cs1 cs2 : List String) (lo1 hi1 lo2 hi2 : Int) :
    renderQuestion df cs1 lo1 hi1 .q1 = renderQuestion df cs2 lo2 hi2 .q1
    ∧ renderQuestion df cs1 lo1 hi1 .q1 = .chartSeries (globalGdpByYear df) :=
  ⟨rfl, rfl⟩

/-- C2: the Filter Engine outputs exactly the records whose country is in
the selected set and whose year satisfies `lo ≤ year ≤ hi`; the output row
count is at most the input row count; an empty country selection yields an
empty result; and an inverted range (`lo > hi`) yields an empty result. -/
theorem C2_filter_engine_correct (t : List Record) (cs : List String) (lo hi : Int) :
    (∀ r, r ∈ applyFilter t cs lo hi ↔
        r ∈ t ∧ r.country ∈ cs ∧ lo ≤ r.year ∧ r.year ≤ hi)
    ∧ (applyFilter t cs lo hi).length ≤ t.length
    ∧ applyFilter t [] lo hi = []
    ∧ (lo > hi → applyFilter t cs lo hi = []) := by
  refine ⟨fun r => ?_, List.length_filter_le _ _, ?_, fun hlh => ?_⟩
  · simp [applyFilter, List.mem_filter, and_assoc]
  · simp [applyFilter]
  · rw [applyFilter, List.filter_eq_nil_iff]
    intro r _ hr
    simp only [Bool.and_eq_true, decide_eq_true_eq] at hr
    omega

/-- Witness for C2: a concrete record, selection, and inverted year range. -/
theorem C2_filter_engine_correct_witness :
    applyFilter [blankRecord] ["X"] 5 3 = [] :=
  (C2_filter_engine_correct [blankRecord] ["X"] 5 3).2.2.2 (by decide)

/-- C10: the Filter Engine is order-preserving: for every table and filter
selection the output is a subsequence of the input, so the surviving records
appear in the same relative order as in the unfiltered table. -/
theorem C10_filter_order_preserving (t : List Record) (cs : List String) (lo hi : Int) :
    (applyFilter t cs lo hi).Sublist t :=
  List.filter_sublist t

/-- C7: year extraction is a table-level filter: every record of the
extracted table carries the integer year successfully parsed from its raw
row, and any raw row whose date failed to parse is removed from the table
entirely. -/
theorem C7_year_extraction_filter (rows : List RawRow) :
    (∀ r ∈ extractYear rows, ∃ raw ∈ rows,
        raw.dateYear = some r.year ∧ r = { raw.fields with year := r.year })
    ∧ (∀ xs ys (raw : RawRow), raw.dateYear = none →
        extractYear (xs ++ raw :: ys) = extractYear (xs ++ ys)) := by
  constructor
  · intro r hr
    rw [extractYear, List.mem_filterMap] at hr
    obtain ⟨raw, hmem, hmap⟩ := hr
    cases hdy : raw.dateYear with
    | none => rw [hdy] at hmap; simp at hmap
    | some y =>
      rw [hdy] at hmap
      simp only [Option.map_some'] at hmap
      injection hmap with hmap
      subst hmap
      exact ⟨raw, hmem, by simp [hdy], rfl⟩
  · intro xs ys raw hnone
    unfold extractYear
    rw [List.filterMap_append, List.filterMap_append, List.filterMap_cons, hnone]
    rfl

/-- Witness for C7: a raw row with an unparseable date is dropped. -/
theorem C7_year_extraction_filter_witness :
    extractYear [RawRow.mk none blankRecord] = [] :=
  (C7_year_extraction_filter []).2 [] [] (RawRow.mk none blankRecord) rfl

/-- Lookup by name succeeds exactly when the name is among the headers. -/
lemma lookupCol_isSome_iff (n : String) (cols : List (String × List PVal)) :
    (lookupCol n cols).isSome = true ↔ n ∈ colNames cols := by
  unfold lookupCol colNames
  cases hf : cols.find? (fun c => c.1 == n) with
  | none =>
    constructor
    · intro hs
      rw [Option.map_none'] at hs
      exact absurd hs (by simp)
    · intro hmem
      rw [List.find?_eq_none] at hf
      rw [List.mem_map] at hmem
      obtain ⟨c, hc, hcn⟩ := hmem
      exact absurd hcn (by simpa using hf c hc)
  | some c =>
    simp only [Option.map_some', Option.isSome_some, true_iff]
    have hpc := List.find?_some hf
    have hmem := List.mem_of_find?_eq_some hf
    rw [List.mem_map]
    exact ⟨c, hmem, by simpa using hpc⟩

/-- C8: provided the raw table does not already carry a `GDP_per_capita`
header, the derived column exists after `load_data` step 3 if and only if
both the GDP and the population source columns exist; when either is absent
the table is returned unchanged (no all-undefined column, no error). -/
theorem C8_derived_column_iff (cols : List (String × List PVal))
    (h : "GDP_per_capita" ∉ colNames cols) :
    "GDP_per_capita" ∈ colNames (addGdpPerCapita cols) ↔
      ("GDP_current_US" ∈ colNames cols ∧ "population" ∈ colNames cols) := by
  unfold addGdpPerCapita
  split
  case _ g p hg hp =>
    have h1 : "GDP_current_US" ∈ colNames cols := by
      rw [← lookupCol_isSome_iff, hg]; rfl
    have h2 : "population" ∈ colNames cols := by
      rw [← lookupCol_isSome_iff, hp]; rfl
    constructor
    · intro _; exact ⟨h1, h2⟩
    · intro _
      unfold colNames
      rw [List.map_append]
      exact List.mem_append_right _ (by simp)
  case _ hfail =>
    constructor
    · intro hmem; exact absurd hmem h
    · rintro ⟨h1, h2⟩
      rw [← lookupCol_isSome_iff] at h1 h2
      obtain ⟨g, hg⟩ := Option.isSome_iff_exists.mp h1
      obtain ⟨p, hp⟩ := Option.isSome_iff_exists.mp h2
      exact (hfail g p hg hp).elim

/-- Witness for C8: with both source columns present and the derived name
absent, the derived column is created. -/
theorem C8_derived_column_iff_witness :
    "GDP_per_capita" ∈ colNames (addGdpPerCapita
      [("GDP_current_US", [PVal.fin 4]), ("population", [PVal.fin 2])]) :=
  (C8_derived_column_iff
      [("GDP_current_US", [PVal.fin 4]), ("population", [PVal.fin 2])]
      (by decide)).mpr ⟨by decide, by decide⟩

/-- C3 counterexample: the claim "population zero implies the derived
GDP-per-capita value is undefined" fails on the code.  On a one-row table
with `GDP_current_US = 100` and `population = 0`, float64 division yields
positive infinity, a defined (non-missing) value, not "no value". -/
theorem C3_counterexample :
    lookupCol "GDP_per_capita"
        (addGdpPerCapita
          [("GDP_current_US", [PVal.fin 100]), ("population", [PVal.fin 0])])
      = some [PVal.pinf]
    ∧ PVal.isNA PVal.pinf = false := by
  constructor
  · decide
  · decide

/-- C3 amended: the derived column is the cellwise float64 quotient of the
two source columns; an undefined GDP or population always propagates to an
undefined quotient and the division never raises (it is total); a zero
population with zero GDP gives an undefined quotient; but a zero population
with a defined nonzero GDP gives a defined signed infinity rather than "no
value" (the only part of the claim the code violates). -/
theorem C3_gdp_per_capita_amended (cols : List (String × List PVal))
    (g p : List PVal) (a b : PVal)
    (hg : lookupCol "GDP_current_US" cols = some g)
    (hp : lookupCol "population" cols = some p) :
    addGdpPerCapita cols = cols ++ [("GDP_per_capita", List.zipWith fdiv g p)]
    ∧ (PVal.isNA a = true ∨ PVal.isNA b = true → PVal.isNA (fdiv a b) = true)
    ∧ fdiv (.fin 0) (.fin 0) = .nan
    ∧ (b = .fin 0 → PVal.isNA a = false → a ≠ .fin 0 →
        fdiv a b = .pinf ∨ fdiv a b = .ninf) := by
  refine ⟨?_, ?_, by decide, ?_⟩
  · unfold addGdpPerCapita
    rw [hg, hp]
  · rintro (ha | hb)
    · have : a = .nan := by cases a <;> simp_all [PVal.isNA]
      subst this
      cases b <;> rfl
    · have : b = .nan := by cases b <;> simp_all [PVal.isNA]
      subst this
      cases a <;> rfl
  · rintro rfl hna hne
    cases a with
    | fin q =>
      have hq : q ≠ 0 := fun hq0 => hne (by rw [hq0])
      have hstep : fdiv (.fin q) (.fin 0) =
          if (0:ℚ) ≠ 0 then .fin (q / 0)
          else if q = 0 then .nan
          else if 0 < q then .pinf else .ninf := rfl
      rw [hstep, if_neg (by simp), if_neg hq]
      by_cases hpos : 0 < q
      · rw [if_pos hpos]; exact Or.inl rfl
      · rw [if_neg hpos]; exact Or.inr rfl
    | pinf => exact Or.inl (by decide)
    | ninf => exact Or.inr (by decide)
    | nan => exact absurd hna (by decide)

/-- Witness for the amended C3 at concrete cells and a concrete table. -/
theorem C3_gdp_per_capita_amended_witness :
    addGdpPerCapita [("GDP_current_US", [PVal.fin 100]), ("population", [PVal.fin 0])]
      = [("GDP_current_US", [PVal.fin 100]), ("population", [PVal.fin 0])]
          ++ [("GDP_per_capita", List.zipWith fdiv [PVal.fin 100] [PVal.fin 0])]
    ∧ PVal.isNA (fdiv .nan (.fin 2)) = true
    ∧ (fdiv (.fin 100) (.fin 0) = .pinf ∨ fdiv (.fin 100) (.fin 0) = .ninf) :=
  ⟨(C3_gdp_per_capita_amended
      [("GDP_current_US", [PVal.fin 100]), ("population", [PVal.fin 0])]
      [PVal.fin 100] [PVal.fin 0] .nan .nan (by decide) (by decide)).1,
   (C3_gdp_per_capita_amended
      [("GDP_current_US", [PVal.fin 100]), ("population", [PVal.fin 0])]
      [PVal.fin 100] [PVal.fin 0] .nan (.fin 2) (by decide) (by decide)).2.1
     (Or.inl rfl),
   (C3_gdp_per_capita_amended
      [("GDP_current_US", [PVal.fin 100]), ("population", [PVal.fin 0])]
      [PVal.fin 100] [PVal.fin 0] (.fin 100) (.fin 0) (by decide) (by decide)).2.2.2
     rfl (by decide) (by decide)⟩

/-- Fixture for C6: three records in year 2000 whose birth rates are
10, missing, 20 (death rates all missing). -/
def c6Fixture : List Record :=
  [{ blankRecord with year := 2000, birth_rate := .fin 10 },
   { blankRecord with year := 2000 },
   { blankRecord with year := 2000, birth_rate := .fin 20 }]

/-- The fixture's birth-rate column has mean 15 once the missing value is
skipped: `(10 + 20) / 2`. -/
lemma meanSkipNA_c6fix :
    meanSkipNA [PVal.fin 10, PVal.nan, PVal.fin 20] = PVal.fin 15 := by
  have h : meanSkipNA [PVal.fin 10, PVal.nan, PVal.fin 20]
      = fdiv (.fin (0 + 10 + 20)) (.fin ((2 : ℕ) : ℚ)) := rfl
  have h2 : fdiv (.fin (0 + 10 + 20 : ℚ)) (.fin ((2 : ℕ) : ℚ))
      = if ((2 : ℕ) : ℚ) ≠ 0 then PVal.fin ((0 + 10 + 20) / ((2 : ℕ) : ℚ))
        else if (0 + 10 + 20 : ℚ) = 0 then .nan
        else if 0 < (0 + 10 + 20 : ℚ) then .pinf else .ninf := rfl
  rw [h, h2, if_pos (by norm_num)]
  norm_num

/-- A column with no defined value has mean NaN. -/
lemma meanSkipNA_allNaN :
    meanSkipNA [PVal.nan, PVal.nan, PVal.nan] = PVal.nan := rfl

/-- C6: the mean-by-year branches (Q7 on birth/death rates, Q10 on land
shares) group the FILTERED table by year and take the arithmetic mean per
year over defined values only: inserting an undefined value into a column
never changes its mean, and on the fixture with birth rates
`[10, missing, 20]` in year 2000 the computed mean is exactly 15. -/
theorem C6_mean_by_year (df : List Record) (cs : List String) (lo hi : Int)
    (l1 l2 : List PVal) :
    renderQuestion df cs lo hi .q7 =
      .chartSeries2 (meanByYear2 (applyFilter df cs lo hi)
        (·.birth_rate) (·.death_rate))
    ∧ renderQuestion df cs lo hi .q10 =
      .chartSeries2 (meanByYear2 (applyFilter df cs lo hi)
        (·.forest_landpct) (·.agricultural_landpct))
    ∧ meanSkipNA (l1 ++ .nan :: l2) = meanSkipNA (l1 ++ l2)
    ∧ meanByYear2 c6Fixture (·.birth_rate) (·.death_rate)
        = [(2000, .fin 15, .nan)] := by
  refine ⟨rfl, rfl, ?_, ?_⟩
  · have hfilter : (l1 ++ .nan :: l2).filter (fun v => !v.isNA)
        = (l1 ++ l2).filter (fun v => !v.isNA) := by
      rw [List.filter_append, List.filter_append,
        List.filter_cons_of_neg (by decide)]
    unfold meanSkipNA
    rw [hfilter]
  · unfold meanByYear2
    rw [show sortedYears c6Fixture = [2000] by
      unfold sortedYears
      rw [show (c6Fixture.map (·.year)).eraseDups = [2000] from by decide]
      exact List.mergeSort_singleton 2000]
    simp only [List.map_cons, List.map_nil]
    have hfilt : c6Fixture.filter (fun r => r.year == (2000 : Int)) = c6Fixture := rfl
    have hb : c6Fixture.map (fun x => x.birth_rate)
        = [PVal.fin 10, PVal.nan, PVal.fin 20] := rfl
    have hd : c6Fixture.map (fun x => x.death_rate)
        = [PVal.nan, PVal.nan, PVal.nan] := rfl
    rw [hfilt, hb, hd, meanSkipNA_c6fix, meanSkipNA_allNaN]

/-- C5: the Q3 Top Emitters view: from the full table restricted to the
most recent year having a defined CO2 value, the branch charts `q3Top`,
whose output is the 10-row cap of a stable descending sort of that year
slice: at most 10 rows, sorted descending by CO2, every included value
defined, every included row at the latest CO2-bearing year, and any two
rows of the slice already in descending order (in particular, ties) keep
their original relative order in the sort. -/
theorem C5_q3_top_emitters (df : List Record) (cs : List String) (lo hi : Int)
    (hne : df.filter (fun r => !(r.CO2_emisions).isNA) ≠ []) :
    renderQuestion df cs lo hi .q3 = .chartBar (q3Top df)
    ∧ q3Top df = ((co2slice df).mergeSort co2desc).take 10
    ∧ (q3Top df).length ≤ 10
    ∧ List.Pairwise (fun a b => co2desc a b = true) (q3Top df)
    ∧ (∀ r ∈ q3Top df, (r.CO2_emisions).isNA = false)
    ∧ (∀ r ∈ q3Top df,
        r.year = maxYearD (df.filter (fun r => !(r.CO2_emisions).isNA)))
    ∧ (∀ l', l'.Sublist (co2slice df) →
        List.Pairwise (fun a b => co2desc a b = true) l' →
        l'.Sublist ((co2slice df).mergeSort co2desc)) := by
  have hq3 : q3Top df = ((co2slice df).mergeSort co2desc).take 10 := rfl
  have hmemslice : ∀ r ∈ q3Top df, r ∈ co2slice df := by
    intro r hr
    rw [hq3] at hr
    have hr2 := (List.take_sublist 10 _).mem hr
    exact ((List.mergeSort_perm (co2slice df) co2desc).mem_iff).mp hr2
  refine ⟨?_, hq3, ?_, ?_, ?_, ?_, ?_⟩
  · have hie : (df.filter (fun r => !(r.CO2_emisions).isNA)).isEmpty = false :=
      List.isEmpty_eq_false.mpr hne
    show (if !(df.filter (fun r => !(r.CO2_emisions).isNA)).isEmpty then
        RenderResult.chartBar (q3Top df) else RenderResult.skip)
      = RenderResult.chartBar (q3Top df)
    rw [hie]
    rfl
  · rw [hq3]
    exact List.length_take_le 10 _
  · rw [hq3]
    exact (List.sorted_mergeSort co2desc_trans co2desc_total
      (co2slice df)).sublist (List.take_sublist 10 _)
  · intro r hr
    have := hmemslice r hr
    unfold co2slice at this
    rw [List.mem_filter] at this
    simpa using this.2
  · intro r hr
    have := hmemslice r hr
    unfold co2slice at this
    rw [List.mem_filter] at this
    have h2 := this.1
    rw [List.mem_filter] at h2
    simpa using h2.2
  · intro l' hs hp
    exact List.sublist_mergeSort co2desc_trans co2desc_total hp hs

/-- Witness for C5: a one-row table with a defined CO2 value. -/
theorem C5_q3_top_emitters_witness :
    (q3Top [{ blankRecord with CO2_emisions := PVal.fin 5 }]).length ≤ 10 :=
  (C5_q3_top_emitters [{ blankRecord with CO2_emisions := PVal.fin 5 }] [] 0 0
    (by decide)).2.2.1

/-- C9 counterexample: with an empty country selection the filter yields
zero rows, yet the Q4 branch renders a chart over the empty subset rather
than showing a warning and skipping the chart — refuting "for every
question view, an empty filter selection produces a user-visible warning
with chart rendering skipped". -/
theorem C9_counterexample :
    applyFilter [blankRecord] [] 1990 2022 = []
    ∧ renderQuestion [blankRecord] [] 1990 2022 .q4 = .chartRows []
    ∧ renderQuestion [blankRecord] [] 1990 2022 .q4 ≠ .warn := by
  refine ⟨rfl, rfl, ?_⟩
  decide

/-- C9 amended: when the filter selection yields zero rows, the Q2 branch
(the only one that checks) shows the warning and skips its chart; no branch
signals an error; and no branch other than Q2 shows a warning — the
remaining filtered-table branches chart the empty subset, while Q1 and Q3
work from the full table. -/
theorem C9_empty_filter_amended (df : List Record) (cs : List String)
    (lo hi : Int) (hz : applyFilter df cs lo hi = []) :
    renderQuestion df cs lo hi .q2 = .warn
    ∧ (∀ q, renderQuestion df cs lo hi q ≠ .err)
    ∧ (∀ q, q ≠ Question.q2 → renderQuestion df cs lo hi q ≠ .warn) := by
  refine ⟨?_, ?_, ?_⟩
  · simp only [renderQuestion, hz]
    rfl
  · intro q
    cases q <;> first
      | (simp only [renderQuestion]; split <;> simp)
      | simp [renderQuestion]
  · intro q hq
    cases q <;> first
      | exact absurd rfl hq
      | (simp only [renderQuestion]; split <;> simp)
      | simp [renderQuestion]

/-- Witness for the amended C9: a concrete table and empty selection. -/
theorem C9_empty_filter_amended_witness :
    renderQuestion [blankRecord] [] 1990 2022 .q2 = .warn :=
  (C9_empty_filter_amended [blankRecord] [] 1990 2022 (by decide)).1
